import Mathlib

/-!
# Verification of the queue53 office-hours queue tool

Shallow embedding of `src/main.rs` (the `QueueState` data model and its
command operations) together with theorems settling the specification
claims.  Conventions:

* Rust `HashMap<String, V>` is modelled as an association list
  `List (String × V)`; `insert` appends when the key is fresh and
  updates in place otherwise, matching map semantics up to iteration
  order.
* Rust `VecDeque<QueuedStudent>` is a `List QueuedStudent` whose head is
  the front of the deque (`push_back` appends, `pop_front` takes the head).
* `Instant` (monotonic clock) is a `Nat`; callers pass the current time.
* String formatting mirrors the `println!`/`format!` strings of the source.
* I/O is abstracted into an explicit environment: the password typed at the
  prompt, file contents, and clock readings are parameters; each operation
  returns the new state, the list of side effects it performed
  (authentication prompt shown, backup written), and an outcome.
* An out-of-bounds index (`parts[1]`) or a failed `.unwrap()` is modelled
  by the distinguished outcome `Outcome.panic`.
-/

/-- Model of Rust `str::split(",")` on the character list: splitting on a
separator keeps empty fields, and the empty string yields one empty field. -/
def splitOnChar (sep : Char) : List Char → List (List Char)
  | [] => [[]]
  | c :: rest =>
    let r := splitOnChar sep rest
    if c == sep then [] :: r
    else
      match r with
      | [] => [[c]]
      | w :: ws => (c :: w) :: ws

/-- `line.split(",")` from `load_roster`. -/
def splitComma (s : String) : List String :=
  (splitOnChar ',' s.data).map String.mk

/-- Accumulating worker for `split_ascii_whitespace`: `cur` holds the
current word reversed. -/
def splitWsAux : List Char → List Char → List String
  | [], cur => if cur.isEmpty then [] else [String.mk cur.reverse]
  | c :: rest, cur =>
    if c.isWhitespace then
      if cur.isEmpty then splitWsAux rest []
      else String.mk cur.reverse :: splitWsAux rest []
    else splitWsAux rest (c :: cur)

/-- Model of Rust `str::split_ascii_whitespace` (used by `process_command`):
maximal runs of non-whitespace characters, no empty tokens. -/
def tokenize (s : String) : List String :=
  splitWsAux s.data []

/-- ASCII model of Rust `str::to_lowercase` on one character
(the roster and netids in this program are ASCII). -/
def asciiLowerChar (c : Char) : Char :=
  if 65 ≤ c.toNat ∧ c.toNat ≤ 90 then Char.ofNat (c.toNat + 32) else c

/-- ASCII model of Rust `String::to_lowercase`. -/
def lowerStr (s : String) : String :=
  String.mk (s.data.map asciiLowerChar)

/-- `HashMap::contains_key` on the association-list model. -/
def alContains {α : Type} (m : List (String × α)) (k : String) : Bool :=
  m.any (fun p => p.1 == k)

/-- `HashMap::get` on the association-list model. -/
def alGet {α : Type} : List (String × α) → String → Option α
  | [], _ => none
  | p :: rest, k => if p.1 == k then some p.2 else alGet rest k

/-- `HashMap::get_mut` followed by an in-place update: rewrite the value at
key `k` (every other binding unchanged). -/
def alUpdate {α : Type} (m : List (String × α)) (k : String) (f : α → α) :
    List (String × α) :=
  m.map (fun p => if p.1 == k then (p.1, f p.2) else p)

/-- `Student` from `src/main.rs`: first/last name and the history of
(time-spent-in-queue, timestamp-popped) pairs.  `Duration` is a `Nat`. -/
structure Student where
  first : String
  last : String
  queue_times : List (Nat × String)
deriving DecidableEq, Repr

/-- `StaffMember` from `src/main.rs`. -/
structure StaffMember where
  checkin_times : List String
deriving DecidableEq, Repr

/-- `QueuedStudent` from `src/main.rs`; `entry_time` is the monotonic
instant (a `Nat` in the model). -/
structure QueuedStudent where
  entry_time : Nat
  net_id : String
deriving DecidableEq, Repr

/-- `QueueState` from `src/main.rs`: the root aggregate. -/
structure QueueState where
  students : List (String × Student)
  staff : List (String × StaffMember)
  queue : List QueuedStudent
  locked : Bool
deriving DecidableEq, Repr

/-- Observable side effects of one operation, in program order:
the password prompt of `authenticate`, and a `save_backup` invocation
(which writes the fixed file `backup.txt`). -/
inductive Event where
  | authPrompt
  | backupWrite
deriving DecidableEq, Repr

/-- Result of one operation: message printed on success / error message
returned, or a Rust panic (index out of bounds, failed `unwrap`). -/
inductive Outcome where
  | success (msg : String)
  | failure (msg : String)
  | panic
  | exited
deriving DecidableEq, Repr

/-- Whether an outcome is a success. -/
def Outcome.isSuccess : Outcome → Bool
  | .success _ => true
  | _ => false

/-- State, side effects and outcome of one operation. -/
structure OpResult where
  state : QueueState
  events : List Event
  out : Outcome
deriving DecidableEq, Repr

/-- The shared secret compared by `authenticate`. -/
def SECRET : String := "53rocks"

/-- Error message of `add` when the netid is not in the student directory. -/
def notAStudentMsg : String :=
  "Not a student. Contact course staff if you believe this is a mistake."

/-- `QueueState::checkin` — `checkin <netid>`. -/
def checkin (s : QueueState) (pw : String) (ts : String)
    (parts : List String) : OpResult :=
  if parts.length < 2 then
    ⟨s, [], .failure "Usage: \"checkin <netid>\"."⟩
  else if pw ≠ SECRET then
    ⟨s, [.authPrompt], .failure "Invalid password."⟩
  else
    let netid := parts.getD 1 ""
    if alContains s.staff netid then
      let staff' := alUpdate s.staff netid (fun m => ⟨m.checkin_times ++ [ts]⟩)
      ⟨{ s with staff := staff' },
        [.authPrompt, .backupWrite], .success (netid ++ " checked in.")⟩
    else
      ⟨s, [.authPrompt],
        .failure "Not a member of staff. Message James on slack."⟩

/-- `QueueState::add` — `add <netid>`.  `now` is the current monotonic
instant used for the new entry. -/
def add (s : QueueState) (now : Nat) (parts : List String) : OpResult :=
  if parts.length < 2 then
    ⟨s, [], .failure "Usage: \"add <netid>\"."⟩
  else
    let netid := parts.getD 1 ""
    if ¬ alContains s.students netid then
      ⟨s, [], .failure notAStudentMsg⟩
    else if s.locked then
      ⟨s, [], .failure "Queue is locked."⟩
    else
      match s.queue.findIdx? (fun e => e.net_id == netid) with
      | some i =>
        ⟨s, [], .failure ("Already in the queue, position: " ++ toString i)⟩
      | none =>
        let q' := s.queue ++ [⟨now, netid⟩]
        ⟨{ s with queue := q' }, [.backupWrite],
          .success ("Added to queue in position " ++ toString q'.length)⟩

/-- `QueueState::pop` — `pop`.  `now` is the current monotonic instant
(elapsed time is `now - entry_time`), `ts` the formatted wall-clock stamp. -/
def pop (s : QueueState) (pw : String) (now : Nat) (ts : String) : OpResult :=
  if pw ≠ SECRET then
    ⟨s, [.authPrompt], .failure "Invalid password."⟩
  else
    match s.queue with
    | [] => ⟨s, [.authPrompt], .failure "Queue is empty."⟩
    | entry :: rest =>
      let dur := now - entry.entry_time
      match alGet s.students entry.net_id with
      | none => ⟨{ s with queue := rest }, [.authPrompt], .panic⟩
      | some stu =>
        let students' := alUpdate s.students entry.net_id
          (fun st => ⟨st.first, st.last, st.queue_times ++ [(dur, ts)]⟩)
        ⟨{ s with queue := rest, students := students' },
          [.authPrompt, .backupWrite],
          .success ("Popped: \"" ++ stu.first ++ " " ++ stu.last ++
            "\" after " ++ toString dur ++ " in queue.")⟩

/-- `QueueState::view` — `view` (read-only; the per-entry directory lookup
uses `.unwrap()`, hence the panic branch). -/
def view (s : QueueState) : OpResult :=
  if s.queue.isEmpty then ⟨s, [], .success "Queue is empty."⟩
  else if s.queue.all (fun e => alContains s.students e.net_id) then
    ⟨s, [], .success ""⟩
  else ⟨s, [], .panic⟩

/-- `QueueState::clear` — `clear`; `clearOk` abstracts `clearscreen::clear()`. -/
def clearScreen (s : QueueState) (pw : String) (clearOk : Bool) : OpResult :=
  if pw ≠ SECRET then ⟨s, [.authPrompt], .failure "Invalid password."⟩
  else if clearOk then ⟨s, [.authPrompt], .success ""⟩
  else ⟨s, [.authPrompt], .failure "Failed to clear screen."⟩

/-- `QueueState::stats` — `stats <filename>`; `createOk` abstracts
`File::create`. -/
def stats (s : QueueState) (pw : String) (createOk : String → Bool)
    (parts : List String) : OpResult :=
  if parts.length < 2 then
    ⟨s, [], .failure "Usage: \"stats <filename>\"."⟩
  else if pw ≠ SECRET then
    ⟨s, [.authPrompt], .failure "Invalid password."⟩
  else if createOk (parts.getD 1 "") then
    ⟨s, [.authPrompt], .success "Stats saved."⟩
  else
    ⟨s, [.authPrompt], .failure "Invalid file."⟩

/-- `QueueState::reset` — `reset`: clears every student's history, the
queue, and the lock flag.  Note the source calls no `save_backup` here. -/
def reset (s : QueueState) (pw : String) : OpResult :=
  if pw ≠ SECRET then ⟨s, [.authPrompt], .failure "Invalid password."⟩
  else
    ⟨{ s with
        students := s.students.map (fun p => (p.1, ⟨p.2.first, p.2.last, []⟩)),
        queue := [],
        locked := false },
      [.authPrompt], .success ""⟩

/-- `QueueState::lock` — `lock` (no `save_backup` in the source). -/
def lock (s : QueueState) (pw : String) : OpResult :=
  if pw ≠ SECRET then ⟨s, [.authPrompt], .failure "Invalid password."⟩
  else ⟨{ s with locked := true }, [.authPrompt], .success "Queue is locked."⟩

/-- `QueueState::unlock` — `unlock` (no `save_backup` in the source). -/
def unlock (s : QueueState) (pw : String) : OpResult :=
  if pw ≠ SECRET then ⟨s, [.authPrompt], .failure "Invalid password."⟩
  else ⟨{ s with locked := false }, [.authPrompt], .success "Queue is unlocked."⟩

/-- `QueueState::help` — `help`. -/
def help (s : QueueState) : OpResult :=
  ⟨s, [], .success ""⟩

/-- `QueueState::quit` — `quit`: authenticate, backup, exit(0). -/
def quit (s : QueueState) (pw : String) : OpResult :=
  if pw ≠ SECRET then ⟨s, [.authPrompt], .failure "Invalid password."⟩
  else ⟨s, [.authPrompt, .backupWrite], .exited⟩

/-- `QueueState::load` — `load <filename>`.  `readFile` abstracts
`fs::read_to_string`, `parseJson` abstracts `serde_json::from_str`.
The usage message really says `save` in the source. -/
def load (s : QueueState) (pw : String) (readFile : String → Option String)
    (parseJson : String → Option QueueState) (parts : List String) : OpResult :=
  if parts.length < 2 then
    ⟨s, [], .failure "Usage: \"save <filename>\"."⟩
  else if pw ≠ SECRET then
    ⟨s, [.authPrompt], .failure "Invalid password."⟩
  else
    match readFile (parts.getD 1 "") with
    | none => ⟨s, [.authPrompt], .failure "Invalid file."⟩
    | some contents =>
      match parseJson contents with
      | none => ⟨s, [.authPrompt], .failure "Failed to parse file."⟩
      | some newSelf => ⟨newSelf, [.authPrompt], .success "Loaded from file."⟩

/-- `QueueState::save` — `save <filename>`. -/
def save (s : QueueState) (pw : String) (createOk : String → Bool)
    (parts : List String) : OpResult :=
  if parts.length < 2 then
    ⟨s, [], .failure "Usage: \"save <filename>\"."⟩
  else if pw ≠ SECRET then
    ⟨s, [.authPrompt], .failure "Invalid password."⟩
  else if createOk (parts.getD 1 "") then
    ⟨s, [.authPrompt], .success "State saved."⟩
  else
    ⟨s, [.authPrompt], .failure "Invalid file."⟩

/-- `QueueState::add_staff` — `add_staff <netid>`. -/
def add_staff (s : QueueState) (pw : String) (parts : List String) : OpResult :=
  if parts.length < 2 then
    ⟨s, [], .failure "Usage: \"add_staff <netid>\"."⟩
  else if pw ≠ SECRET then
    ⟨s, [.authPrompt], .failure "Invalid password."⟩
  else
    let netid := parts.getD 1 ""
    if alContains s.staff netid then
      ⟨s, [.authPrompt], .failure (netid ++ " is already a staff member.")⟩
    else
      ⟨{ s with staff := s.staff ++ [(netid, ⟨[]⟩)] },
        [.authPrompt, .backupWrite],
        .success ("Staff member " ++ netid ++ " added.")⟩

/-- The per-line loop of `load_roster`, mutating the (already cleared)
student directory in place: returns the directory as left by the loop and
`some errorMessage` if a line did not have exactly 4 comma-separated
fields.  `i` is the 0-based line counter of `enumerate`. -/
def rosterLoop (acc : List (String × Student)) (i : Nat) :
    List String → List (String × Student) × Option String
  | [] => (acc, none)
  | line :: rest =>
    let lp := splitComma line
    if lp.length ≠ 4 then
      (acc, some ("Err on line " ++ toString i ++ ":" ++ line ++ " "))
    else
      let netid := lowerStr (lp.getD 2 "")
      let acc' :=
        if alContains acc netid then acc
        else acc ++ [(netid, ⟨lowerStr (lp.getD 1 ""), lowerStr (lp.getD 0 ""), []⟩)]
      rosterLoop acc' (i + 1) rest

/-- `QueueState::load_roster` — `load_roster <path_to_file>`.
`rosterRead` abstracts opening the file and collecting its lines.
The arity guard in the source is `parts.len() < 1` (never true when
dispatched, since `parts[0]` is the verb), so a missing argument reaches
`parts[1]`, an out-of-bounds index: the panic branch. -/
def load_roster (s : QueueState) (pw : String)
    (rosterRead : String → Option (List String)) (parts : List String) :
    OpResult :=
  if parts.length < 1 then
    ⟨s, [], .failure "Usage: \"load_roster <path_to_file>\"."⟩
  else if pw ≠ SECRET then
    ⟨s, [.authPrompt], .failure "Invalid password."⟩
  else
    match parts.get? 1 with
    | none => ⟨s, [.authPrompt], .panic⟩
    | some path =>
      match rosterRead path with
      | none => ⟨s, [.authPrompt], .failure "Invalid file1."⟩
      | some lines =>
        match rosterLoop [] 0 lines with
        | (sts, some e) =>
          ⟨{ s with students := sts }, [.authPrompt], .failure e⟩
        | (sts, none) =>
          ⟨{ s with students := sts }, [.authPrompt, .backupWrite],
            .success ("Imported " ++ toString sts.length ++ " students.")⟩

/-- The I/O environment of one command: the password the operator would
type, the clock readings, and the abstracted file system. -/
structure Env where
  pw : String
  now : Nat
  ts : String
  readFile : String → Option String
  parseJson : String → Option QueueState
  rosterRead : String → Option (List String)
  createOk : String → Bool
  clearOk : Bool

/-- `QueueState::process_command`: tokenize the line, reject an empty
token list, dispatch on the lowercased verb. -/
def process_command (env : Env) (s : QueueState) (command : String) : OpResult :=
  let parts := tokenize command
  if parts.isEmpty then ⟨s, [], .failure "Command is empty."⟩
  else
    match lowerStr (parts.getD 0 "") with
    | "checkin" => checkin s env.pw env.ts parts
    | "add" => add s env.now parts
    | "pop" => pop s env.pw env.now env.ts
    | "view" => view s
    | "clear" => clearScreen s env.pw env.clearOk
    | "stats" => stats s env.pw env.createOk parts
    | "reset" => reset s env.pw
    | "lock" => lock s env.pw
    | "unlock" => unlock s env.pw
    | "help" => help s
    | "quit" => quit s env.pw
    | "load" => load s env.pw env.readFile env.parseJson parts
    | "save" => save s env.pw env.createOk parts
    | "add_staff" => add_staff s env.pw parts
    | "load_roster" => load_roster s env.pw env.rosterRead parts
    | _ => ⟨s, [], .failure "Unknown command."⟩

/-- Running a sequence of `add` commands, one netid per call
(the REPL loop feeding `add <n>` lines): final state and, in order,
the outcome of each call. -/
def addSeq (s : QueueState) (now : Nat) : List String → QueueState × List Outcome
  | [] => (s, [])
  | n :: rest =>
    let r := add s now ["add", n]
    let (s', outs) := addSeq r.state now rest
    (s', r.out :: outs)

/-- The internal invariant claimed by `pop`: every queued netid is a key of
the student directory. -/
def qinv (s : QueueState) : Bool :=
  s.queue.all (fun e => alContains s.students e.net_id)

/-! ## Serialization model (serde_json)

The JSON document written by `save_backup`/`save` and read by `load`:
`serde_json` output of the derived `Serialize`/`Deserialize` instances,
with `SerializableInstant` serializing as the constant number `0` and
deserializing to `Instant::now()` (the `now` parameter below), and
`Duration` as its `{secs, nanos}` pair. -/

/-- JSON values. -/
inductive Json where
  | num : Nat → Json
  | str : String → Json
  | jbool : Bool → Json
  | arr : List Json → Json
  | obj : List (String × Json) → Json

/-- `Duration` serializes as `{secs, nanos}`; durations are total
nanoseconds in the model. -/
def encDuration (d : Nat) : Json :=
  .obj [("secs", .num (d / 1000000000)), ("nanos", .num (d % 1000000000))]

/-- One `queue_times` entry `(Duration, String)` as a two-element array. -/
def encQueueTime (p : Nat × String) : Json :=
  .arr [encDuration p.1, .str p.2]

/-- Derived `Serialize` for `Student`. -/
def encStudent (st : Student) : Json :=
  .obj [("first", .str st.first), ("last", .str st.last),
    ("queue_times", .arr (st.queue_times.map encQueueTime))]

/-- Derived `Serialize` for `StaffMember`. -/
def encStaffMember (m : StaffMember) : Json :=
  .obj [("checkin_times", .arr (m.checkin_times.map Json.str))]

/-- Derived `Serialize` for `QueuedStudent`; `SerializableInstant`
serializes as the placeholder `0`. -/
def encQueuedStudent (q : QueuedStudent) : Json :=
  .obj [("entry_time", .num 0), ("net_id", .str q.net_id)]

/-- Derived `Serialize` for `QueueState` (maps serialize as objects). -/
def encQueueState (s : QueueState) : Json :=
  .obj [
    ("students", .obj (s.students.map (fun p => (p.1, encStudent p.2)))),
    ("staff", .obj (s.staff.map (fun p => (p.1, encStaffMember p.2)))),
    ("queue", .arr (s.queue.map encQueuedStudent)),
    ("locked", .jbool s.locked)]

/-- Deserialize a `Duration`. -/
def decDuration : Json → Option Nat
  | .obj [("secs", .num sec), ("nanos", .num na)] => some (sec * 1000000000 + na)
  | _ => none

/-- Deserialize one `queue_times` entry. -/
def decQueueTime : Json → Option (Nat × String)
  | .arr [d, .str t] => (decDuration d).map (fun dd => (dd, t))
  | _ => none

/-- Deserialize every element of an array, failing if any element fails. -/
def decList {α : Type} (f : Json → Option α) : List Json → Option (List α)
  | [] => some []
  | j :: rest =>
    match f j with
    | none => none
    | some a => (decList f rest).map (fun l => a :: l)

/-- Deserialize every value of an object, failing if any value fails. -/
def decPairs {α : Type} (f : Json → Option α) :
    List (String × Json) → Option (List (String × α))
  | [] => some []
  | (k, j) :: rest =>
    match f j with
    | none => none
    | some a => (decPairs f rest).map (fun l => (k, a) :: l)

/-- Deserialize a `Student`. -/
def decStudent : Json → Option Student
  | .obj [("first", .str f), ("last", .str l), ("queue_times", .arr qs)] =>
    (decList decQueueTime qs).map (fun q => ⟨f, l, q⟩)
  | _ => none

/-- Deserialize a `StaffMember`. -/
def decStaffMember : Json → Option StaffMember
  | .obj [("checkin_times", .arr ts)] =>
    (decList (fun j => match j with | .str t => some t | _ => none) ts).map
      (fun l => ⟨l⟩)
  | _ => none

/-- Deserialize a `QueuedStudent`: the serialized instant is read and
discarded, the entry time becomes `Instant::now()` (`now`). -/
def decQueuedStudent (now : Nat) : Json → Option QueuedStudent
  | .obj [("entry_time", .num _), ("net_id", .str n)] => some ⟨now, n⟩
  | _ => none

/-- Deserialize a `QueueState`. -/
def decQueueState (now : Nat) : Json → Option QueueState
  | .obj [("students", .obj sj), ("staff", .obj fj), ("queue", .arr qj),
      ("locked", .jbool b)] =>
    match decPairs decStudent sj, decPairs decStaffMember fj,
        decList (decQueuedStudent now) qj with
    | some sts, some stf, some q => some ⟨sts, stf, q, b⟩
    | _, _, _ => none
  | _ => none

/-! ## Helper lemmas -/

lemma alGet_map {α β : Type} (l : List (String × α)) (f : α → β) (k : String) :
    alGet (l.map (fun p => (p.1, f p.2))) k = (alGet l k).map f := by
  induction l with
  | nil => rfl
  | cons p t ih =>
    by_cases h : p.1 == k
    · simp [alGet, h]
    · simp [alGet, h, ih]

lemma decDuration_enc (d : Nat) : decDuration (encDuration d) = some d := by
  simp [decDuration, encDuration]
  omega

lemma decQueueTime_enc (p : Nat × String) :
    decQueueTime (encQueueTime p) = some p := by
  simp [decQueueTime, encQueueTime, decDuration_enc]

lemma decList_map {α : Type} (f : Json → Option α) (g : α → Json)
    (l : List α) (h : ∀ x ∈ l, f (g x) = some x) :
    decList f (l.map g) = some l := by
  induction l with
  | nil => rfl
  | cons a t ih =>
    have ha : f (g a) = some a := h a (List.mem_cons_self a t)
    have ht := ih (fun x hx => h x (List.mem_cons_of_mem a hx))
    simp [decList, ha, ht]

lemma decPairs_map {α : Type} (f : Json → Option α) (g : α → Json)
    (l : List (String × α)) (h : ∀ p ∈ l, f (g p.2) = some p.2) :
    decPairs f (l.map (fun p => (p.1, g p.2))) = some l := by
  induction l with
  | nil => rfl
  | cons a t ih =>
    have ha : f (g a.2) = some a.2 := h a (List.mem_cons_self a t)
    have ht := ih (fun p hp => h p (List.mem_cons_of_mem a hp))
    simp [decPairs, ha, ht]

lemma decStudent_enc (st : Student) : decStudent (encStudent st) = some st := by
  have h := decList_map decQueueTime encQueueTime st.queue_times
    (fun x _ => decQueueTime_enc x)
  simp [decStudent, encStudent, h]

lemma decStaffMember_enc (m : StaffMember) :
    decStaffMember (encStaffMember m) = some m := by
  have h := decList_map
    (fun j => match j with | .str t => some t | _ => none) Json.str
    m.checkin_times (fun x _ => rfl)
  simp [decStaffMember, encStaffMember, h]

lemma decQueuedStudent_enc (now : Nat) (q : QueuedStudent) :
    decQueuedStudent now (encQueuedStudent q) = some ⟨now, q.net_id⟩ := rfl

/-! ## Claims -/

/-- C6: serializing a `QueueState` and deserializing the result yields a
state with the same `students`, `staff`, `queue` (net_ids in the same
order) and `locked` value; only the per-entry `entry_time` values are
replaced (they deserialize to the load-time instant `now`). -/
theorem c6_roundtrip (s : QueueState) (now : Nat) :
    decQueueState now (encQueueState s) =
      some ⟨s.students, s.staff,
        s.queue.map (fun e => ⟨now, e.net_id⟩), s.locked⟩ := by
  have hs := decPairs_map decStudent encStudent s.students
    (fun p _ => decStudent_enc p.2)
  have hf := decPairs_map decStaffMember encStaffMember s.staff
    (fun p _ => decStaffMember_enc p.2)
  have hq : decList (decQueuedStudent now) (s.queue.map encQueuedStudent) =
      some (s.queue.map (fun e => ⟨now, e.net_id⟩)) := by
    induction s.queue with
    | nil => rfl
    | cons a t ih => simp [decList, decQueuedStudent_enc, ih]
  simp [decQueueState, encQueueState, hs, hf, hq]

/-- C7: `reset` with the correct secret succeeds, clears every student's
history (keys and names preserved), empties the queue, and clears the lock
flag, while leaving the staff directory (hence every staff member's
check-in history) exactly unchanged. -/
theorem c7_reset_frame (s : QueueState) :
    (reset s SECRET).out = .success "" ∧
    (reset s SECRET).state.queue = [] ∧
    (reset s SECRET).state.locked = false ∧
    (reset s SECRET).state.staff = s.staff ∧
    (∀ k, alGet (reset s SECRET).state.students k =
      (alGet s.students k).map (fun st => ⟨st.first, st.last, []⟩)) := by
  refine ⟨rfl, rfl, rfl, rfl, fun k => ?_⟩
  simpa [reset, SECRET] using
    alGet_map s.students (fun st : Student => (⟨st.first, st.last, []⟩ : Student)) k

lemma splitWsAux_all_ws (cs : List Char) (h : ∀ c ∈ cs, c.isWhitespace) :
    splitWsAux cs [] = [] := by
  induction cs with
  | nil => rfl
  | cons c t ih =>
    have hc : c.isWhitespace := h c (List.mem_cons_self c t)
    simp [splitWsAux, hc, List.isEmpty, ih (fun d hd => h d (List.mem_cons_of_mem c hd))]

/-- C9: an input line that is empty or contains only whitespace tokenizes
to no tokens, so `process_command` rejects it with the message
"Command is empty." and leaves the state unchanged. -/
theorem c9_empty_line (env : Env) (s : QueueState) (command : String)
    (h : ∀ c ∈ command.data, c.isWhitespace) :
    process_command env s command = ⟨s, [], .failure "Command is empty."⟩ := by
  have ht : tokenize command = [] := splitWsAux_all_ws command.data h
  simp [process_command, ht]

/-- Witness for C9 at a concrete whitespace-only line. -/
theorem c9_empty_line_witness :
    process_command
      ⟨"", 0, "", fun _ => none, fun _ => none, fun _ => none, fun _ => false, false⟩
      ⟨[], [], [], false⟩ "  " =
      ⟨⟨[], [], [], false⟩, [], .failure "Command is empty."⟩ :=
  c9_empty_line _ _ _ (by decide)

/-- C2 counterexample: with the queue locked and a netid absent from the
student directory, `add` fails with the not-a-student error, not with
"Queue is locked." — the directory check precedes the lock check. -/
theorem c2_locked_counterexample :
    (add ⟨[], [], [], true⟩ 0 ["add", "x"]).out = .failure notAStudentMsg ∧
    (add ⟨[], [], [], true⟩ 0 ["add", "x"]).out ≠ .failure "Queue is locked." := by
  decide

/-- C2 (amended): while the lock flag is set, `add` never changes the
state (in particular the queue length is unchanged), and for every netid
that is in the student directory it fails with "Queue is locked."
(a netid absent from the directory fails with the not-a-student error
instead, since the directory check comes first). -/
theorem c2_locked_amended (s : QueueState) (now : Nat) (netid : String)
    (hl : s.locked = true) :
    (add s now ["add", netid]).state = s ∧
    (alContains s.students netid = true →
      (add s now ["add", netid]).out = .failure "Queue is locked.") := by
  constructor
  · by_cases h2 : alContains s.students netid <;> simp [add, h2, hl]
  · intro h2
    simp [add, h2, hl]

/-- Witness for C2 (amended) at a locked state containing student "ab". -/
theorem c2_locked_amended_witness :
    (⟨[("ab", ⟨"a", "b", []⟩)], [], [], true⟩ : QueueState).locked = true ∧
    (add ⟨[("ab", ⟨"a", "b", []⟩)], [], [], true⟩ 0 ["add", "ab"]).out =
      .failure "Queue is locked." :=
  ⟨rfl, (c2_locked_amended ⟨[("ab", ⟨"a", "b", []⟩)], [], [], true⟩ 0 "ab" rfl).2
    (by decide)⟩

/-- C4 (code bug): `load_roster` with its required argument missing does
not return its usage error — the guard is `parts.len() < 1`, never true
once a verb is present — so the operation authenticates first and then
panics on the out-of-bounds `parts[1]`; and `load` with its argument
missing returns a usage error naming `save`, not `load`. -/
theorem c4_usage_before_auth_bug :
    load_roster ⟨[], [], [], false⟩ SECRET (fun _ => some []) ["load_roster"] =
      ⟨⟨[], [], [], false⟩, [.authPrompt], .panic⟩ ∧
    (load ⟨[], [], [], false⟩ SECRET (fun _ => none) (fun _ => none)
        ["load"]).out = .failure "Usage: \"save <filename>\"." := by
  constructor
  · rfl
  · rfl

/-- C8 counterexample: `reset` with the correct secret succeeds and
mutates the state (here it empties a non-empty queue), yet writes no
backup — its success path never calls `save_backup`. -/
theorem c8_backup_counterexample :
    (reset ⟨[], [], [⟨0, "a"⟩], false⟩ SECRET).out.isSuccess = true ∧
    (reset ⟨[], [], [⟨0, "a"⟩], false⟩ SECRET).state ≠ ⟨[], [], [⟨0, "a"⟩], false⟩ ∧
    Event.backupWrite ∉ (reset ⟨[], [], [⟨0, "a"⟩], false⟩ SECRET).events := by
  decide

/-- C8 (amended): `add`, `pop`, `checkin`, `add_staff` and `load_roster`
write the automatic backup on every success, while `reset`, `lock` and
`unlock` never write a backup (successful or not). -/
theorem c8_backup_on_mutation (s : QueueState) (now : Nat) (pw ts : String)
    (parts : List String) (rosterRead : String → Option (List String)) :
    ((add s now parts).out.isSuccess = true →
      Event.backupWrite ∈ (add s now parts).events) ∧
    ((pop s pw now ts).out.isSuccess = true →
      Event.backupWrite ∈ (pop s pw now ts).events) ∧
    ((checkin s pw ts parts).out.isSuccess = true →
      Event.backupWrite ∈ (checkin s pw ts parts).events) ∧
    ((add_staff s pw parts).out.isSuccess = true →
      Event.backupWrite ∈ (add_staff s pw parts).events) ∧
    ((load_roster s pw rosterRead parts).out.isSuccess = true →
      Event.backupWrite ∈ (load_roster s pw rosterRead parts).events) ∧
    Event.backupWrite ∉ (reset s pw).events ∧
    Event.backupWrite ∉ (lock s pw).events ∧
    Event.backupWrite ∉ (unlock s pw).events := by
  refine ⟨?_, ?_, ?_, ?_, ?_, ?_, ?_, ?_⟩
  · intro h
    by_cases h1 : parts.length < 2
    · simp [add, h1, Outcome.isSuccess] at h
    · by_cases h2 : alContains s.students (parts[1]?.getD "")
      · by_cases h3 : s.locked
        · simp [add, h1, h2, h3, Outcome.isSuccess] at h
        · rcases hf : s.queue.findIdx? (fun e => e.net_id == parts[1]?.getD "") with _ | i
          · simp [add, h1, h2, h3, hf]
          · simp [add, h1, h2, h3, hf, Outcome.isSuccess] at h
      · simp [add, h1, h2, Outcome.isSuccess] at h
  · intro h
    by_cases h1 : pw = SECRET
    · rcases hq : s.queue with _ | ⟨entry, rest⟩
      · simp [pop, h1, hq, Outcome.isSuccess] at h
      · rcases hg : alGet s.students entry.net_id with _ | stu
        · simp [pop, h1, hq, hg, Outcome.isSuccess] at h
        · simp [pop, h1, hq, hg]
    · simp [pop, h1, Outcome.isSuccess] at h
  · intro h
    by_cases h1 : parts.length < 2
    · simp [checkin, h1, Outcome.isSuccess] at h
    · by_cases h2 : pw = SECRET
      · by_cases h3 : alContains s.staff (parts[1]?.getD "")
        · simp [checkin, h1, h2, h3]
        · simp [checkin, h1, h2, h3, Outcome.isSuccess] at h
      · simp [checkin, h1, h2, Outcome.isSuccess] at h
  · intro h
    by_cases h1 : parts.length < 2
    · simp [add_staff, h1, Outcome.isSuccess] at h
    · by_cases h2 : pw = SECRET
      · by_cases h3 : alContains s.staff (parts[1]?.getD "")
        · simp [add_staff, h1, h2, h3, Outcome.isSuccess] at h
        · simp [add_staff, h1, h2, h3]
      · simp [add_staff, h1, h2, Outcome.isSuccess] at h
  · intro h
    by_cases h1 : parts.length < 1
    · simp [load_roster, h1, Outcome.isSuccess] at h
    · by_cases h2 : pw = SECRET
      · rcases hp : parts[1]? with _ | path
        · simp [load_roster, h1, h2, hp, Outcome.isSuccess] at h
        · rcases hr : rosterRead path with _ | lines
          · simp [load_roster, h1, h2, hp, hr, Outcome.isSuccess] at h
          · rcases hl : rosterLoop [] 0 lines with ⟨sts, e⟩
            rcases e with _ | msg
            · simp [load_roster, h1, h2, hp, hr, hl]
            · simp [load_roster, h1, h2, hp, hr, hl, Outcome.isSuccess] at h
      · simp [load_roster, h1, h2, Outcome.isSuccess] at h
  · by_cases h1 : pw = SECRET <;> simp [reset, h1]
  · by_cases h1 : pw = SECRET <;> simp [lock, h1]
  · by_cases h1 : pw = SECRET <;> simp [unlock, h1]

/-- Witness for C8 (amended): a successful `add` writes the backup, and
`reset` does not. -/
theorem c8_backup_on_mutation_witness :
    (add ⟨[("ab", ⟨"a", "b", []⟩)], [], [], false⟩ 0 ["add", "ab"]).out.isSuccess = true ∧
    Event.backupWrite ∈
      (add ⟨[("ab", ⟨"a", "b", []⟩)], [], [], false⟩ 0 ["add", "ab"]).events ∧
    Event.backupWrite ∉
      (reset ⟨[("ab", ⟨"a", "b", []⟩)], [], [], false⟩ SECRET).events :=
  ⟨by decide,
    (c8_backup_on_mutation ⟨[("ab", ⟨"a", "b", []⟩)], [], [], false⟩ 0 SECRET "t"
      ["add", "ab"] (fun _ => none)).1 (by decide),
    (c8_backup_on_mutation ⟨[("ab", ⟨"a", "b", []⟩)], [], [], false⟩ 0 SECRET "t"
      ["add", "ab"] (fun _ => none)).2.2.2.2.2.1⟩

lemma rosterLoop_firstBad (lines : List String) :
    ∀ (acc : List (String × Student)) (i : Nat),
      lines.findIdx (fun l => (splitComma l).length != 4) < lines.length →
      rosterLoop acc i lines =
        ((rosterLoop acc i
            (lines.take (lines.findIdx (fun l => (splitComma l).length != 4)))).1,
          some ("Err on line " ++
            toString (i + lines.findIdx (fun l => (splitComma l).length != 4)) ++
            ":" ++
            lines.getD (lines.findIdx (fun l => (splitComma l).length != 4)) "" ++
            " ")) := by
  induction lines with
  | nil => intro acc i h; simp at h
  | cons line rest ih =>
    intro acc i h
    by_cases hb : (splitComma line).length = 4
    · have hfix : ((splitComma line).length != 4) = false := by simp [hb]
      have hidx : (line :: rest).findIdx (fun l => (splitComma l).length != 4) =
          rest.findIdx (fun l => (splitComma l).length != 4) + 1 := by
        simp [List.findIdx_cons, hfix]
      rw [hidx] at h ⊢
      have hlt : rest.findIdx (fun l => (splitComma l).length != 4) < rest.length := by
        simpa using h
      have hstep : ∀ ls : List String, rosterLoop acc i (line :: ls) =
          rosterLoop
            (if alContains acc (lowerStr ((splitComma line).getD 2 "")) then acc
              else acc ++ [(lowerStr ((splitComma line).getD 2 ""),
                ⟨lowerStr ((splitComma line).getD 1 ""),
                  lowerStr ((splitComma line).getD 0 ""), []⟩)])
            (i + 1) ls := by
        intro ls
        simp [rosterLoop, hb]
      rw [List.take_succ_cons, hstep, hstep,
        ih _ (i + 1) hlt, List.getD_cons_succ]
      have harith : i + 1 + rest.findIdx (fun l => (splitComma l).length != 4) =
          i + (rest.findIdx (fun l => (splitComma l).length != 4) + 1) := by omega
      rw [harith]
    · have hfix : ((splitComma line).length != 4) = true := by simp [hb]
      have hidx : (line :: rest).findIdx (fun l => (splitComma l).length != 4) = 0 := by
        simp [List.findIdx_cons, hfix]
      rw [hidx]
      simp [rosterLoop, hb]

/-- C3 counterexample: a roster whose second line is malformed fails with
the line-numbered error, but the student directory is NOT left empty — it
holds the student parsed from the well-formed first line (and the prior
contents are gone). -/
theorem c3_partial_import_counterexample :
    (load_roster ⟨[("old", ⟨"o", "o", []⟩)], [], [], false⟩ SECRET
        (fun _ => some ["a,b,c,d", "bad"]) ["load_roster", "f"]).out =
      .failure "Err on line 1:bad " ∧
    (load_roster ⟨[("old", ⟨"o", "o", []⟩)], [], [], false⟩ SECRET
        (fun _ => some ["a,b,c,d", "bad"]) ["load_roster", "f"]).state.students =
      [("c", ⟨"b", "a", []⟩)] ∧
    (load_roster ⟨[("old", ⟨"o", "o", []⟩)], [], [], false⟩ SECRET
        (fun _ => some ["a,b,c,d", "bad"]) ["load_roster", "f"]).state.students ≠
      [] := by
  decide

/-- C3 (amended): on a roster file with a malformed line, `load_roster`
fails with an error naming the (0-based) index of the first line that does
not split into exactly 4 comma-separated fields, and leaves the student
directory holding exactly the students imported from the well-formed
lines preceding it — the prior directory contents are cleared, but the
directory is partially populated, not empty. -/
theorem c3_partial_import (s : QueueState) (path : String) (lines : List String)
    (hk : lines.findIdx (fun l => (splitComma l).length != 4) < lines.length) :
    (load_roster s SECRET (fun _ => some lines) ["load_roster", path]).out =
      .failure ("Err on line " ++
        toString (lines.findIdx (fun l => (splitComma l).length != 4)) ++ ":" ++
        lines.getD (lines.findIdx (fun l => (splitComma l).length != 4)) "" ++
        " ") ∧
    (load_roster s SECRET (fun _ => some lines) ["load_roster", path]).state.students =
      (rosterLoop [] 0
        (lines.take (lines.findIdx (fun l => (splitComma l).length != 4)))).1 := by
  have hr := rosterLoop_firstBad lines [] 0 hk
  constructor <;> simp [load_roster, hr]

/-- Witness for C3 (amended) at the two-line roster of the counterexample. -/
theorem c3_partial_import_witness :
    (load_roster ⟨[], [], [], false⟩ SECRET
        (fun _ => some ["a,b,c,d", "bad"]) ["load_roster", "f"]).out =
      .failure "Err on line 1:bad " ∧
    (load_roster ⟨[], [], [], false⟩ SECRET
        (fun _ => some ["a,b,c,d", "bad"]) ["load_roster", "f"]).state.students =
      [("c", ⟨"b", "a", []⟩)] := by
  have h := c3_partial_import ⟨[], [], [], false⟩ "f" ["a,b,c,d", "bad"] (by decide)
  constructor
  · rw [h.1]; decide
  · rw [h.2]; decide

lemma alGet_isSome_of_alContains {α : Type} (m : List (String × α)) (k : String)
    (h : alContains m k = true) : ∃ v, alGet m k = some v := by
  induction m with
  | nil => simp [alContains] at h
  | cons p t ih =>
    by_cases hp : p.1 == k
    · exact ⟨p.2, by simp [alGet, hp]⟩
    · simp only [alContains, List.any_cons, hp, Bool.false_or] at h
      rcases ih h with ⟨v, hv⟩
      exact ⟨v, by simp [alGet, hp, hv]⟩

lemma alUpdate_keys {α : Type} (m : List (String × α)) (k : String) (f : α → α) :
    (alUpdate m k f).map Prod.fst = m.map Prod.fst := by
  simp only [alUpdate, List.map_map]
  apply List.map_congr_left
  intro a _
  simp only [Function.comp_apply]
  split_ifs <;> rfl

lemma alContains_eq_keys {α : Type} (m : List (String × α)) (k : String) :
    alContains m k = (m.map Prod.fst).any (fun x => x == k) := by
  induction m with
  | nil => rfl
  | cons p t ih =>
    simp only [alContains, List.any_cons, List.map_cons] at ih ⊢
    rw [ih]

lemma alContains_alUpdate {α : Type} (m : List (String × α)) (k k2 : String)
    (f : α → α) : alContains (alUpdate m k f) k2 = alContains m k2 := by
  rw [alContains_eq_keys, alContains_eq_keys, alUpdate_keys]

/-- C5 counterexample: the fatal lookup in `pop` IS reachable.  Starting
from a consistent state, `add` queues student "ab"; `load_roster` then
replaces the student directory with a roster that lacks "ab" but leaves
the queue untouched; the next `pop` fails its directory lookup — the
modelled `unwrap` panic. -/
theorem c5_pop_panic_counterexample :
    (add ⟨[("ab", ⟨"a", "b", []⟩)], [], [], false⟩ 0 ["add", "ab"]).out.isSuccess = true ∧
    (load_roster (add ⟨[("ab", ⟨"a", "b", []⟩)], [], [], false⟩ 0 ["add", "ab"]).state
        SECRET (fun _ => some ["x,y,z,w"]) ["load_roster", "f"]).out.isSuccess = true ∧
    (pop (load_roster (add ⟨[("ab", ⟨"a", "b", []⟩)], [], [], false⟩ 0 ["add", "ab"]).state
        SECRET (fun _ => some ["x,y,z,w"]) ["load_roster", "f"]).state
      SECRET 5 "t").out = .panic := by
  decide

/-- C5 (amended): whenever every queued netid is a key of the student
directory (`qinv`), `pop` cannot reach its fatal lookup, and `qinv` is
preserved by `add`, `pop`, `checkin`, `add_staff`, `reset`, `lock` and
`unlock` — but not by `load_roster`, which clears the student directory
without clearing the queue (see the counterexample). -/
theorem c5_pop_invariant (s : QueueState) (pw ts : String) (now : Nat)
    (parts : List String) (h : qinv s = true) :
    (pop s pw now ts).out ≠ .panic ∧
    qinv (add s now parts).state = true ∧
    qinv (pop s pw now ts).state = true ∧
    qinv (checkin s pw ts parts).state = true ∧
    qinv (add_staff s pw parts).state = true ∧
    qinv (reset s pw).state = true ∧
    qinv (lock s pw).state = true ∧
    qinv (unlock s pw).state = true := by
  refine ⟨?_, ?_, ?_, ?_, ?_, ?_, ?_, ?_⟩
  · by_cases h1 : pw = SECRET
    · rcases hq : s.queue with _ | ⟨entry, rest⟩
      · simp [pop, h1, hq]
      · have hc : alContains s.students entry.net_id = true := by
          have := h
          simp only [qinv, hq, List.all_cons, Bool.and_eq_true] at this
          exact this.1
        rcases alGet_isSome_of_alContains s.students entry.net_id hc with ⟨v, hv⟩
        simp [pop, h1, hq, hv]
    · simp [pop, h1]
  · by_cases h1 : parts.length < 2
    · simpa [add, h1] using h
    · by_cases h2 : alContains s.students (parts[1]?.getD "")
      · by_cases h3 : s.locked
        · simpa [add, h1, h2, h3] using h
        · rcases hf : s.queue.findIdx? (fun e => e.net_id == parts[1]?.getD "") with _ | i
          · simp only [qinv] at h
            simp [add, h1, h2, h3, hf, qinv, List.all_append, h, List.all_cons]
          · simpa [add, h1, h2, h3, hf] using h
      · simpa [add, h1, h2] using h
  · by_cases h1 : pw = SECRET
    · rcases hq : s.queue with _ | ⟨entry, rest⟩
      · simpa [pop, h1, hq] using h
      · have hrest : rest.all (fun e => alContains s.students e.net_id) = true := by
          have := h
          simp only [qinv, hq, List.all_cons, Bool.and_eq_true] at this
          exact this.2
        rcases hg : alGet s.students entry.net_id with _ | stu
        · simpa [pop, h1, hq, hg, qinv] using hrest
        · simp [pop, h1, hq, hg, qinv, alContains_alUpdate]
          simpa using hrest
    · simpa [pop, h1] using h
  · by_cases h1 : parts.length < 2
    · simpa [checkin, h1] using h
    · by_cases h2 : pw = SECRET
      · by_cases h3 : alContains s.staff (parts[1]?.getD "")
        · simpa [checkin, h1, h2, h3, qinv] using h
        · simpa [checkin, h1, h2, h3] using h
      · simpa [checkin, h1, h2] using h
  · by_cases h1 : parts.length < 2
    · simpa [add_staff, h1] using h
    · by_cases h2 : pw = SECRET
      · by_cases h3 : alContains s.staff (parts[1]?.getD "")
        · simpa [add_staff, h1, h2, h3] using h
        · simpa [add_staff, h1, h2, h3, qinv] using h
      · simpa [add_staff, h1, h2] using h
  · by_cases h1 : pw = SECRET
    · simp [reset, h1, qinv]
    · simpa [reset, h1] using h
  · by_cases h1 : pw = SECRET
    · simpa [lock, h1, qinv] using h
    · simpa [lock, h1] using h
  · by_cases h1 : pw = SECRET
    · simpa [unlock, h1, qinv] using h
    · simpa [unlock, h1] using h

/-- Witness for C5 (amended): a consistent one-entry state; `pop` does not
panic on it. -/
theorem c5_pop_invariant_witness :
    qinv ⟨[("ab", ⟨"a", "b", []⟩)], [], [⟨0, "ab"⟩], false⟩ = true ∧
    (pop ⟨[("ab", ⟨"a", "b", []⟩)], [], [⟨0, "ab"⟩], false⟩ SECRET 1 "t").out ≠
      .panic :=
  ⟨by decide,
    (c5_pop_invariant ⟨[("ab", ⟨"a", "b", []⟩)], [], [⟨0, "ab"⟩], false⟩ SECRET "t" 1
      ["add", "cd"] (by decide)).1⟩

lemma toNat_ofNat_upper (n : Nat) (h1 : 65 ≤ n) (h2 : n ≤ 90) :
    (Char.ofNat (n + 32)).toNat = n + 32 := by
  have hv : (n + 32).isValidChar := by
    unfold Nat.isValidChar
    left
    omega
  rw [Char.ofNat, dif_pos hv]
  simp [Char.ofNatAux, Char.toNat, UInt32.toNat, UInt32.ofNatCore,
    BitVec.toNat_ofNatLt]

lemma asciiLowerChar_ne (c : Char) (h1 : 65 ≤ c.toNat) (h2 : c.toNat ≤ 90) :
    asciiLowerChar c ≠ c := by
  unfold asciiLowerChar
  rw [if_pos ⟨h1, h2⟩]
  intro heq
  have h3 := congrArg Char.toNat heq
  rw [toNat_ofNat_upper c.toNat h1 h2] at h3
  omega

lemma map_eq_self_forall {α : Type} (l : List α) (f : α → α)
    (h : l.map f = l) : ∀ c ∈ l, f c = c := by
  induction l with
  | nil => simp
  | cons a t ih =>
    simp only [List.map_cons, List.cons.injEq] at h
    intro c hc
    rcases List.mem_cons.mp hc with rfl | hc
    · exact h.1
    · exact ih h.2 c hc

lemma lowerStr_ne (s : String)
    (h : ∃ c ∈ s.data, 65 ≤ c.toNat ∧ c.toNat ≤ 90) : lowerStr s ≠ s := by
  intro heq
  have hd : s.data.map asciiLowerChar = s.data := congrArg String.data heq
  rcases h with ⟨c, hc, hcu⟩
  exact asciiLowerChar_ne c hcu.1 hcu.2 (map_eq_self_forall _ _ hd c hc)

/-- C10: `load_roster` lowercases the netid key while `add` looks the
argument up case-sensitively.  After importing a roster line whose netid
field contains an uppercase ASCII letter, the directory key is the
lowercased netid only: `add` with the netid exactly as written in the
roster fails the directory lookup with the not-a-student error, the
lowercased form is the one present in the directory, and no other key is. -/
theorem c10_lowercased_keys (s : QueueState)
    (path line lastF firstF netid extra : String) (now : Nat)
    (h4 : splitComma line = [lastF, firstF, netid, extra])
    (hup : ∃ c ∈ netid.data, 65 ≤ c.toNat ∧ c.toNat ≤ 90) :
    (load_roster s SECRET (fun _ => some [line]) ["load_roster", path]).out =
      .success "Imported 1 students." ∧
    (load_roster s SECRET (fun _ => some [line]) ["load_roster", path]).state.students =
      [(lowerStr netid, ⟨lowerStr firstF, lowerStr lastF, []⟩)] ∧
    (add (load_roster s SECRET (fun _ => some [line])
        ["load_roster", path]).state now ["add", netid]).out =
      .failure notAStudentMsg ∧
    alContains (load_roster s SECRET (fun _ => some [line])
      ["load_roster", path]).state.students (lowerStr netid) = true ∧
    (∀ k, alContains (load_roster s SECRET (fun _ => some [line])
      ["load_roster", path]).state.students k = true → k = lowerStr netid) := by
  have hne : lowerStr netid ≠ netid := lowerStr_ne netid hup
  have hbeq : (lowerStr netid == netid) = false := by
    simp [hne]
  have hloop : rosterLoop [] 0 [line] =
      ([(lowerStr netid, ⟨lowerStr firstF, lowerStr lastF, []⟩)], none) := by
    simp [rosterLoop, h4, alContains]
  have hr : load_roster s SECRET (fun _ => some [line]) ["load_roster", path] =
      ⟨{ s with students := [(lowerStr netid, ⟨lowerStr firstF, lowerStr lastF, []⟩)] },
        [.authPrompt, .backupWrite],
        .success ("Imported " ++ toString
          ([(lowerStr netid, (⟨lowerStr firstF, lowerStr lastF, []⟩ : Student))].length)
          ++ " students.")⟩ := by
    simp [load_roster, hloop]
  rw [hr]
  refine ⟨by simp only [List.length_singleton]; rfl, rfl, ?_, ?_, ?_⟩
  · simp [add, alContains, hbeq]
  · simp [alContains]
  · intro k hk
    simp [alContains] at hk
    exact hk.symm

/-- Witness for C10 on the roster line "Smith,John,JSmith,X": `add JSmith`
fails the lookup, `add jsmith` would pass it. -/
theorem c10_lowercased_keys_witness :
    (add (load_roster ⟨[], [], [], false⟩ SECRET
        (fun _ => some ["Smith,John,JSmith,X"]) ["load_roster", "f"]).state
      0 ["add", "JSmith"]).out = .failure notAStudentMsg ∧
    alContains (load_roster ⟨[], [], [], false⟩ SECRET
      (fun _ => some ["Smith,John,JSmith,X"]) ["load_roster", "f"]).state.students
      (lowerStr "JSmith") = true :=
  ⟨(c10_lowercased_keys ⟨[], [], [], false⟩ "f" "Smith,John,JSmith,X"
      "Smith" "John" "JSmith" "X" 0 (by decide) (by decide)).2.2.1,
    (c10_lowercased_keys ⟨[], [], [], false⟩ "f" "Smith,John,JSmith,X"
      "Smith" "John" "JSmith" "X" 0 (by decide) (by decide)).2.2.2.1⟩

lemma map_netid_mk (now : Nat) (l : List String) :
    (l.map (fun n => ({ entry_time := now, net_id := n } : QueuedStudent))).map
      (fun e => e.net_id) = l := by
  rw [List.map_map]
  have h : ∀ x ∈ l,
      ((fun e => e.net_id) ∘
        fun n => ({ entry_time := now, net_id := n } : QueuedStudent)) x = id x :=
    fun x _ => rfl
  rw [List.map_congr_left h, List.map_id]

lemma findIdx?_eq_none_of_notMem (l : List QueuedStudent) (n : String)
    (h : ∀ e ∈ l, e.net_id ≠ n) :
    l.findIdx? (fun e => e.net_id == n) = none := by
  induction l with
  | nil => rfl
  | cons a t ih =>
    have ha : (a.net_id == n) = false := by
      simp [h a (List.mem_cons_self a t)]
    simp [List.findIdx?_cons, ha,
      ih (fun e he => h e (List.mem_cons_of_mem a he))]

lemma add_success_eq (s : QueueState) (now : Nat) (n : String)
    (hmem : alContains s.students n = true) (hlock : s.locked = false)
    (hq : ∀ e ∈ s.queue, e.net_id ≠ n) :
    add s now ["add", n] =
      ⟨{ s with queue := s.queue ++ [⟨now, n⟩] }, [.backupWrite],
        .success ("Added to queue in position " ++
          toString (s.queue.length + 1))⟩ := by
  have hf := findIdx?_eq_none_of_notMem s.queue n hq
  simp [add, hmem, hlock, hf]

lemma successRange_succ (base k : Nat) :
    (List.range (k + 1)).map (fun j =>
      Outcome.success ("Added to queue in position " ++ toString (base + j + 1))) =
    Outcome.success ("Added to queue in position " ++ toString (base + 1)) ::
      (List.range k).map (fun j =>
        Outcome.success ("Added to queue in position " ++
          toString (base + 1 + j + 1))) := by
  rw [List.range_succ_eq_map, List.map_cons, List.map_map]
  simp only [List.cons.injEq]
  constructor
  · simp
  · apply List.map_congr_left
    intro j _
    simp only [Function.comp_apply]
    have h : base + (j + 1) + 1 = base + 1 + j + 1 := by omega
    rw [h]

lemma addSeq_spec (now : Nat) :
    ∀ (ns : List String) (s : QueueState),
      ns.Nodup →
      (∀ n ∈ ns, alContains s.students n = true) →
      s.locked = false →
      (∀ n ∈ ns, ∀ e ∈ s.queue, e.net_id ≠ n) →
      (addSeq s now ns).1 =
        { s with queue := s.queue ++ ns.map (fun n => ⟨now, n⟩) } ∧
      (addSeq s now ns).2 =
        (List.range ns.length).map (fun j =>
          Outcome.success ("Added to queue in position " ++
            toString (s.queue.length + j + 1))) := by
  intro ns
  induction ns with
  | nil =>
    intro s _ _ _ _
    exact ⟨by simp [addSeq], rfl⟩
  | cons n rest ih =>
    intro s h1 h2 h3 h4
    have hmem : alContains s.students n = true :=
      h2 n (List.mem_cons_self n rest)
    have hqd : ∀ e ∈ s.queue, e.net_id ≠ n :=
      fun e he => h4 n (List.mem_cons_self n rest) e he
    have hadd := add_success_eq s now n hmem h3 hqd
    have hnotin : n ∉ rest := (List.nodup_cons.mp h1).1
    have ihres := ih { s with queue := s.queue ++ [⟨now, n⟩] }
      (List.nodup_cons.mp h1).2
      (fun m hm => h2 m (List.mem_cons_of_mem n hm))
      h3
      (by
        intro m hm e he
        rcases List.mem_append.mp he with hold | hnew
        · exact h4 m (List.mem_cons_of_mem n hm) e hold
        · rcases List.mem_singleton.mp hnew with rfl
          intro hcontra
          simp only [] at hcontra
          subst hcontra
          exact hnotin hm)
    rcases ihres with ⟨ihs, iho⟩
    constructor
    · show (addSeq s now (n :: rest)).1 = _
      simp only [addSeq, hadd]
      rw [ihs]
      simp [List.append_assoc]
    · show (addSeq s now (n :: rest)).2 = _
      simp only [addSeq, hadd]
      rw [iho]
      have hlen : ({ s with queue := s.queue ++ [⟨now, n⟩] } : QueueState).queue.length =
          s.queue.length + 1 := by
        simp
      rw [hlen, List.length_cons, successRange_succ]

/-- C1: starting from an unlocked state with an empty queue, a sequence of
`add` calls with distinct netids all present in the student directory
succeeds throughout: the Nth `add` reports 1-based position N (the queue
length after its insertion), the queue afterwards holds the netids in
insertion order (the Nth occupies 0-based index N-1), and the first `pop`
then succeeds and removes exactly the earliest-inserted entry. -/
theorem c1_fifo (s : QueueState) (now now2 : Nat) (ts : String)
    (ns : List String) (hq0 : s.queue = []) (hl : s.locked = false)
    (hnd : ns.Nodup) (hv : ∀ n ∈ ns, alContains s.students n = true) :
    (addSeq s now ns).2 =
      (List.range ns.length).map (fun j =>
        Outcome.success ("Added to queue in position " ++ toString (j + 1))) ∧
    (addSeq s now ns).1.queue.map (fun e => e.net_id) = ns ∧
    (∀ n0 rest, ns = n0 :: rest →
      ((addSeq s now ns).1.queue.head?.map (fun e => e.net_id) = some n0) ∧
      (pop (addSeq s now ns).1 SECRET now2 ts).out.isSuccess = true ∧
      (pop (addSeq s now ns).1 SECRET now2 ts).state.queue.map
        (fun e => e.net_id) = rest) := by
  have hdisj : ∀ n ∈ ns, ∀ e ∈ s.queue, e.net_id ≠ n := by
    intro n _ e he
    rw [hq0] at he
    simp at he
  rcases addSeq_spec now ns s hnd hv hl hdisj with ⟨ihs, iho⟩
  refine ⟨?_, ?_, ?_⟩
  · rw [iho, hq0]
    simp
  · rw [ihs]
    simp only [hq0, List.nil_append]
    exact map_netid_mk now ns
  · intro n0 rest hns
    subst hns
    have hqeq : (addSeq s now (n0 :: rest)).1.queue =
        ⟨now, n0⟩ :: rest.map (fun n => ⟨now, n⟩) := by
      rw [ihs, hq0]
      rfl
    have hstu : (addSeq s now (n0 :: rest)).1.students = s.students := by
      rw [ihs]
    have hmem0 : alContains s.students n0 = true :=
      hv n0 (List.mem_cons_self n0 rest)
    rcases alGet_isSome_of_alContains s.students n0 hmem0 with ⟨v, hvv⟩
    refine ⟨by rw [hqeq]; rfl, ?_, ?_⟩
    · simp [pop, SECRET, hqeq, hstu, hvv, Outcome.isSuccess]
    · have hpq : (pop (addSeq s now (n0 :: rest)).1 SECRET now2 ts).state.queue =
          rest.map (fun n => ⟨now, n⟩) := by
        simp [pop, SECRET, hqeq, hstu, hvv]
      rw [hpq]
      exact map_netid_mk now rest

/-- Witness for C1 with the two-student roster and adds "ab" then "cd". -/
theorem c1_fifo_witness :
    (addSeq ⟨[("ab", ⟨"a", "b", []⟩), ("cd", ⟨"c", "d", []⟩)], [], [], false⟩ 0
        ["ab", "cd"]).2 =
      [.success "Added to queue in position 1",
        .success "Added to queue in position 2"] ∧
    (addSeq ⟨[("ab", ⟨"a", "b", []⟩), ("cd", ⟨"c", "d", []⟩)], [], [], false⟩ 0
        ["ab", "cd"]).1.queue.map (fun e => e.net_id) = ["ab", "cd"] ∧
    (pop (addSeq ⟨[("ab", ⟨"a", "b", []⟩), ("cd", ⟨"c", "d", []⟩)], [], [], false⟩ 0
        ["ab", "cd"]).1 SECRET 7 "t").state.queue.map
      (fun e => e.net_id) = ["cd"] := by
  have h := c1_fifo ⟨[("ab", ⟨"a", "b", []⟩), ("cd", ⟨"c", "d", []⟩)], [], [], false⟩
    0 7 "t" ["ab", "cd"] rfl rfl (by decide) (by decide)
  exact ⟨by rw [h.1]; rfl, h.2.1, (h.2.2 "ab" ["cd"] rfl).2.2⟩
